import Mathlib

/-!
Verification of the durable multipart-upload state machine of `s3mu`.

The definitions below are a shallow embedding of the Rust source:
  * `Part`, `Operation`, `State`, `Error` embed `src/state.rs`;
  * `State.apply` embeds `State::apply` (src/state.rs);
  * `Action` embeds `src/actions.rs`;
  * `nextActionOpt` embeds `App::next_action` (src/app.rs), with the
    `parts.get(index).unwrap()` panic modelled as `none`;
  * `replay` embeds the recovery fold of `App::new` (src/app.rs);
  * the `Wal` functions embed `src/wal.rs` together with the serde_json
    encoding of `WalEntry<Operation>` used there;
  * `executeAction` and `App.applyOp` embed the orchestrator loop body of
    `App::run` and `App::apply` (src/app.rs).

Rust `u32`/`usize` values are modelled as `Nat` (no claim below exercises
wraparound), `i64` as `Int`, and fallible functions as `Except`/`Option`.
-/

deriving instance DecidableEq for Except

namespace S3mu

/-- Embeds `struct Part` of src/state.rs. -/
structure Part where
  number : Int
  path : String
  etag : String
deriving DecidableEq, Repr

/-- Embeds `Part::new` of src/state.rs: a fresh part has an empty etag. -/
def Part.new (number : Int) (path : String) : Part :=
  { number := number, path := path, etag := "" }

/-- Embeds `enum Operation` of src/state.rs. -/
inductive Operation where
  | ConfiguredParts (parts : List Part)
  | Started (uploadId : String)
  | FailedStart (attempt : Nat) (msg : String)
  | UploadedPart (index : Nat) (etag : String)
  | FailedPart (index : Nat) (attempt : Nat) (msg : String)
  | FailedComplete (attempt : Nat) (msg : String)
  | Completed
  | FailedAbort (attempt : Nat) (msg : String)
  | Aborted
deriving DecidableEq, Repr

/-- Embeds `enum Error` of src/state.rs. -/
inductive Error where
  | InvalidState (msg : String)
  | Other (msg : String)
  | IndexOutOfBounds
deriving DecidableEq, Repr

/-- Embeds `enum State` of src/state.rs. -/
inductive State where
  | Init
  | Starting (parts : List Part) (attempt : Nat)
  | Uploading (parts : List Part) (uploadId : String) (index : Nat) (attempt : Nat)
  | Completing (uploadId : String) (attempt : Nat) (parts : List Part)
  | Completed
  | Aborting (uploadId : String) (attempt : Nat)
  | Aborted
deriving DecidableEq, Repr

/-- Models the escaping Rust's `Debug`/serde_json apply to the characters of a
string: quote and backslash get a backslash, common control characters get
their short escapes. -/
def escapeStringChar (c : Char) : String :=
  if c == '"' then "\\\""
  else if c == '\\' then "\\\\"
  else if c == '\n' then "\\n"
  else if c == '\r' then "\\r"
  else if c == '\t' then "\\t"
  else String.singleton c

/-- Models Rust's `{:?}` formatting of a `String`: the string quoted and
escaped. -/
def rustDebugStr (s : String) : String :=
  "\"" ++ String.join (s.data.map escapeStringChar) ++ "\""

/-- Models Rust's derived `{:?}` formatting of a `Part`
(src/state.rs `#[derive(Debug)]`). -/
def debugPart (p : Part) : String :=
  "Part \x7b number: " ++ toString p.number ++ ", path: " ++ rustDebugStr p.path
    ++ ", etag: " ++ rustDebugStr p.etag ++ " \x7d"

/-- Models Rust's derived `{:?}` formatting of an `Operation`
(src/state.rs `#[derive(Debug)]`). -/
def debugOp : Operation → String
  | .ConfiguredParts parts =>
      "ConfiguredParts([" ++ String.intercalate ", " (parts.map debugPart) ++ "])"
  | .Started uploadId =>
      "Started \x7b upload_id: " ++ rustDebugStr uploadId ++ " \x7d"
  | .FailedStart attempt msg =>
      "FailedStart \x7b attempt: " ++ toString attempt ++ ", msg: " ++ rustDebugStr msg ++ " \x7d"
  | .UploadedPart index etag =>
      "UploadedPart \x7b index: " ++ toString index ++ ", etag: " ++ rustDebugStr etag ++ " \x7d"
  | .FailedPart index attempt msg =>
      "FailedPart \x7b index: " ++ toString index ++ ", attempt: " ++ toString attempt
        ++ ", msg: " ++ rustDebugStr msg ++ " \x7d"
  | .FailedComplete attempt msg =>
      "FailedComplete \x7b attempt: " ++ toString attempt ++ ", msg: " ++ rustDebugStr msg ++ " \x7d"
  | .Completed => "Completed"
  | .FailedAbort attempt msg =>
      "FailedAbort \x7b attempt: " ++ toString attempt ++ ", msg: " ++ rustDebugStr msg ++ " \x7d"
  | .Aborted => "Aborted"

/-- Embeds `State::apply` of src/state.rs, arm by arm.  Note three source
peculiarities kept faithfully: the `FailedStart` arm stores the operation's
`attempt` unchanged (no `+ 1`, unlike the other `Failed*` arms); the
`UploadedPart` and `FailedPart` arms shadow the state's `index` binding with
the operation's `index` field; the `Uploading` arm accepts no abort-phase
operation. -/
def State.apply : State → Operation → Except Error State
  | .Init, .ConfiguredParts parts =>
      if parts.isEmpty then
        .error (.InvalidState "no parts configured")
      else
        .ok (.Starting parts 0)
  | .Init, op =>
      .error (.InvalidState ("invalid operation " ++ debugOp op ++ " in init state"))
  | .Starting parts _, .Started uploadId =>
      .ok (.Uploading parts uploadId 0 0)
  | .Starting parts _, .FailedStart attempt _ =>
      .ok (.Starting parts attempt)
  | .Starting _ _, op =>
      .error (.InvalidState ("invalid operation " ++ debugOp op ++ " in ready state"))
  | .Uploading parts uploadId _ _, .UploadedPart index etag =>
      match parts.get? index with
      | none => .error .IndexOutOfBounds
      | some p =>
          let parts := parts.set index { p with etag := etag }
          let index := index + 1
          if index == parts.length then
            .ok (.Completing uploadId 0 parts)
          else
            .ok (.Uploading parts uploadId index 0)
  | .Uploading parts uploadId _ _, .FailedPart index attempt _ =>
      .ok (.Uploading parts uploadId index (attempt + 1))
  | .Uploading _ _ _ _, op =>
      .error (.InvalidState ("invalid operation " ++ debugOp op ++ " in uploading state"))
  | .Completing _ _ _, .Completed => .ok .Completed
  | .Completing uploadId _ parts, .FailedComplete attempt _ =>
      .ok (.Completing uploadId (attempt + 1) parts)
  | .Completing _ _ _, .Aborted => .ok .Aborted
  | .Completing _ _ _, op =>
      .error (.InvalidState ("invalid operation " ++ debugOp op ++ " in completing state"))
  | .Aborting _ _, .Aborted => .ok .Aborted
  | .Aborting uploadId _, .FailedAbort attempt _ =>
      .ok (.Aborting uploadId (attempt + 1))
  | .Aborting _ _, op =>
      .error (.InvalidState ("invalid operation " ++ debugOp op ++ " in aborting state"))
  | .Completed, op =>
      .error (.InvalidState ("invalid operation " ++ debugOp op ++ " in completed state"))
  | .Aborted, op =>
      .error (.InvalidState ("invalid operation " ++ debugOp op ++ " in aborted state"))

/-- Embeds `enum Action` of src/actions.rs. -/
inductive Action where
  | LoadParts
  | StartUpload (attempt : Nat)
  | Terminate
  | Abort (uploadId : String) (attempt : Nat) (msg : String)
  | Complete (uploadId : String) (attempt : Nat) (parts : List Part)
  | UploadPart (uploadId : String) (index : Nat) (attempt : Nat) (part : Part)
deriving DecidableEq, Repr

/-- Embeds `App::next_action` of src/app.rs.  The source's
`parts.get(index).unwrap()` panics when `index` is out of bounds; that panic
is modelled as `none` — every non-panicking path returns `some`. -/
def nextActionOpt (s : State) (maxAttempts : Nat) : Option Action :=
  match s with
  | .Init => some .LoadParts
  | .Starting _ attempt =>
      if attempt == maxAttempts then
        some .Terminate
      else
        some (.StartUpload attempt)
  | .Uploading parts uploadId index attempt =>
      if attempt == maxAttempts then
        some (.Abort uploadId 1
          (toString attempt ++ " out of " ++ toString maxAttempts
            ++ " failures uploading part " ++ toString (index + 1)))
      else
        match parts.get? index with
        | none => none
        | some part => some (.UploadPart uploadId index attempt part)
  | .Completing uploadId attempt parts =>
      if attempt == maxAttempts then
        some (.Abort uploadId 1
          (toString attempt ++ " out of " ++ toString maxAttempts
            ++ " failures completing upload"))
      else
        some (.Complete uploadId attempt parts)
  | .Completed => some .Terminate
  | .Aborting uploadId attempt =>
      if attempt == maxAttempts then
        some .Terminate
      else
        some (.Abort uploadId attempt
          (toString attempt ++ " out of " ++ toString maxAttempts
            ++ " failures completing upload"))
  | .Aborted => some .Terminate

/-- Embeds the recovery fold of `App::new` (src/app.rs): every log entry is
folded through `State::apply` starting from `State::new() = Init`, the first
error aborting the fold. -/
def replay (ops : List Operation) : Except Error State :=
  ops.foldlM State.apply State.Init

/-- The part `P1` of the spec's Scenario 3. -/
def partP1 : Part := Part.new 1 "p1"

/-- Embeds `enum WalError` of src/wal.rs. -/
inductive WalError where
  | LoadError (msg : String)
  | AppendError (msg : String)
deriving DecidableEq, Repr

/-- Models serde_json's encoding of a `String` value: quoted, with the
escaping of `escapeStringChar`. -/
def jsonStr (s : String) : String :=
  "\"" ++ String.join (s.data.map escapeStringChar) ++ "\""

/-- Models serde's derived `Serialize` for `Part` (src/state.rs): a JSON
object with the fields in declaration order. -/
def encodePart (p : Part) : String :=
  "\x7b\"number\":" ++ toString p.number ++ ",\"path\":" ++ jsonStr p.path
    ++ ",\"etag\":" ++ jsonStr p.etag ++ "\x7d"

/-- Models serde's derived `Serialize` for `Operation` (src/state.rs):
externally tagged enum encoding, unit variants as bare strings. -/
def encodeOp : Operation → String
  | .ConfiguredParts parts =>
      "\x7b\"ConfiguredParts\":[" ++ String.intercalate "," (parts.map encodePart) ++ "]\x7d"
  | .Started uploadId =>
      "\x7b\"Started\":\x7b\"upload_id\":" ++ jsonStr uploadId ++ "\x7d\x7d"
  | .FailedStart attempt msg =>
      "\x7b\"FailedStart\":\x7b\"attempt\":" ++ toString attempt
        ++ ",\"msg\":" ++ jsonStr msg ++ "\x7d\x7d"
  | .UploadedPart index etag =>
      "\x7b\"UploadedPart\":\x7b\"index\":" ++ toString index
        ++ ",\"etag\":" ++ jsonStr etag ++ "\x7d\x7d"
  | .FailedPart index attempt msg =>
      "\x7b\"FailedPart\":\x7b\"index\":" ++ toString index
        ++ ",\"attempt\":" ++ toString attempt ++ ",\"msg\":" ++ jsonStr msg ++ "\x7d\x7d"
  | .FailedComplete attempt msg =>
      "\x7b\"FailedComplete\":\x7b\"attempt\":" ++ toString attempt
        ++ ",\"msg\":" ++ jsonStr msg ++ "\x7d\x7d"
  | .Completed => "\"Completed\""
  | .FailedAbort attempt msg =>
      "\x7b\"FailedAbort\":\x7b\"attempt\":" ++ toString attempt
        ++ ",\"msg\":" ++ jsonStr msg ++ "\x7d\x7d"
  | .Aborted => "\"Aborted\""

/-- Models `serde_json::to_string(&WalEntry \x7b action: op \x7d)`, the line
built by `Wal::append` (src/wal.rs): the struct `WalEntry` has the single
field `action`. -/
def encodeEntry (op : Operation) : String :=
  "\x7b\"action\":" ++ encodeOp op ++ "\x7d"

/-- JSON values, the subset serde_json needs for `WalEntry<Operation>`
(no floats, booleans or null occur in that type). -/
inductive Json where
  | num (n : Int)
  | str (s : String)
  | arr (items : List Json)
  | obj (fields : List (String × Json))

/-- JSON whitespace. -/
def isWsChar (c : Char) : Bool :=
  c == ' ' || c == '\t' || c == '\n' || c == '\r'

/-- Skips leading JSON whitespace. -/
def skipWs : List Char → List Char
  | [] => []
  | c :: cs => if isWsChar c then skipWs cs else c :: cs

/-- Parses the remainder of a JSON string literal (after the opening quote),
returning the decoded characters and the input after the closing quote. -/
def parseStrChars : List Char → Option (List Char × List Char)
  | [] => none
  | c :: cs =>
      if c == '"' then
        some ([], cs)
      else if c == '\\' then
        match cs with
        | [] => none
        | e :: cs2 =>
            let d? : Option Char :=
              if e == '"' then some '"'
              else if e == '\\' then some '\\'
              else if e == '/' then some '/'
              else if e == 'n' then some '\n'
              else if e == 't' then some '\t'
              else if e == 'r' then some '\r'
              else if e == 'b' then some '\x08'
              else if e == 'f' then some '\x0c'
              else none
            match d? with
            | none => none
            | some d =>
                match parseStrChars cs2 with
                | none => none
                | some (str, rest) => some (d :: str, rest)
      else
        match parseStrChars cs with
        | none => none
        | some (str, rest) => some (c :: str, rest)

/-- Takes the longest leading run of decimal digits. -/
def takeDigits : List Char → (List Char × List Char)
  | [] => ([], [])
  | c :: cs =>
      if c.isDigit then
        let (ds, rest) := takeDigits cs
        (c :: ds, rest)
      else
        ([], c :: cs)

/-- Decimal value of a digit run. -/
def digitsToNat (ds : List Char) : Nat :=
  ds.foldl (fun acc c => acc * 10 + (c.toNat - 48)) 0

/-- Parses a JSON integer token (optional minus sign, then digits). -/
def parseIntTok : List Char → Option (Int × List Char)
  | '-' :: cs =>
      match takeDigits cs with
      | ([], _) => none
      | (ds, rest) => some (-(Int.ofNat (digitsToNat ds)), rest)
  | cs =>
      match takeDigits cs with
      | ([], _) => none
      | (ds, rest) => some (Int.ofNat (digitsToNat ds), rest)

mutual

/-- Recursive-descent JSON value parser, fuelled by input length; models the
grammar serde_json accepts when deserialising `WalEntry<Operation>`. -/
def parseJson : Nat → List Char → Option (Json × List Char)
  | 0, _ => none
  | Nat.succ fuel, cs =>
      match skipWs cs with
      | [] => none
      | c :: rest =>
          if c == '"' then
            match parseStrChars rest with
            | none => none
            | some (str, r) => some (.str (String.mk str), r)
          else if c == '[' then
            match skipWs rest with
            | ']' :: r2 => some (.arr [], r2)
            | cs2 =>
                match parseArrItems fuel cs2 with
                | none => none
                | some (xs, r) => some (.arr xs, r)
          else if c == '\x7b' then
            match skipWs rest with
            | '\x7d' :: r2 => some (.obj [], r2)
            | cs2 =>
                match parseObjItems fuel cs2 with
                | none => none
                | some (fs, r) => some (.obj fs, r)
          else
            match parseIntTok (c :: rest) with
            | none => none
            | some (n, r) => some (.num n, r)

/-- Parses the comma-separated items of a non-empty JSON array, up to and
including the closing bracket. -/
def parseArrItems : Nat → List Char → Option (List Json × List Char)
  | 0, _ => none
  | Nat.succ fuel, cs =>
      match parseJson fuel cs with
      | none => none
      | some (x, r) =>
          match skipWs r with
          | ',' :: r2 =>
              match parseArrItems fuel r2 with
              | none => none
              | some (xs, r3) => some (x :: xs, r3)
          | ']' :: r2 => some ([x], r2)
          | _ => none

/-- Parses the members of a non-empty JSON object, up to and including the
closing brace. -/
def parseObjItems : Nat → List Char → Option (List (String × Json) × List Char)
  | 0, _ => none
  | Nat.succ fuel, cs =>
      match skipWs cs with
      | '"' :: r =>
          match parseStrChars r with
          | none => none
          | some (key, r2) =>
              match skipWs r2 with
              | ':' :: r3 =>
                  match parseJson fuel r3 with
                  | none => none
                  | some (v, r4) =>
                      match skipWs r4 with
                      | ',' :: r5 =>
                          match parseObjItems fuel r5 with
                          | none => none
                          | some (fs, r6) => some ((String.mk key, v) :: fs, r6)
                      | '\x7d' :: r5 => some ([(String.mk key, v)], r5)
                      | _ => none
              | _ => none
      | _ => none

end

/-- First field of an object with a given key (serde's derived deserializers
accept fields in any order and ignore unknown fields). -/
def jlookup (fields : List (String × Json)) (k : String) : Option Json :=
  (fields.find? (fun f => f.1 == k)).map (fun f => f.2)

/-- Extracts a JSON string value. -/
def jsonAsStr : Json → Option String
  | .str s => some s
  | _ => none

/-- Extracts a non-negative JSON integer (the `u32`/`usize` fields). -/
def jsonAsNat : Json → Option Nat
  | .num n => if n < 0 then none else some n.toNat
  | _ => none

/-- Extracts a JSON integer (the `i64` field of `Part`). -/
def jsonAsInt : Json → Option Int
  | .num n => some n
  | _ => none

/-- Models serde's derived `Deserialize` for `Part`. -/
def jsonToPart : Json → Option Part
  | .obj fs => do
      let number ← jlookup fs "number" >>= jsonAsInt
      let path ← jlookup fs "path" >>= jsonAsStr
      let etag ← jlookup fs "etag" >>= jsonAsStr
      pure { number := number, path := path, etag := etag }
  | _ => none

/-- Models serde's derived `Deserialize` for `Operation`: a unit variant is a
bare string, any other variant an object with exactly the variant name as its
one key. -/
def jsonToOp : Json → Option Operation
  | .str s =>
      if s == "Completed" then some .Completed
      else if s == "Aborted" then some .Aborted
      else none
  | .obj [(k, v)] =>
      if k == "ConfiguredParts" then
        match v with
        | .arr xs => (xs.mapM jsonToPart).map Operation.ConfiguredParts
        | _ => none
      else if k == "Started" then
        match v with
        | .obj fs => (jlookup fs "upload_id" >>= jsonAsStr).map Operation.Started
        | _ => none
      else if k == "FailedStart" then
        match v with
        | .obj fs => do
            let attempt ← jlookup fs "attempt" >>= jsonAsNat
            let msg ← jlookup fs "msg" >>= jsonAsStr
            pure (Operation.FailedStart attempt msg)
        | _ => none
      else if k == "UploadedPart" then
        match v with
        | .obj fs => do
            let index ← jlookup fs "index" >>= jsonAsNat
            let etag ← jlookup fs "etag" >>= jsonAsStr
            pure (Operation.UploadedPart index etag)
        | _ => none
      else if k == "FailedPart" then
        match v with
        | .obj fs => do
            let index ← jlookup fs "index" >>= jsonAsNat
            let attempt ← jlookup fs "attempt" >>= jsonAsNat
            let msg ← jlookup fs "msg" >>= jsonAsStr
            pure (Operation.FailedPart index attempt msg)
        | _ => none
      else if k == "FailedComplete" then
        match v with
        | .obj fs => do
            let attempt ← jlookup fs "attempt" >>= jsonAsNat
            let msg ← jlookup fs "msg" >>= jsonAsStr
            pure (Operation.FailedComplete attempt msg)
        | _ => none
      else if k == "FailedAbort" then
        match v with
        | .obj fs => do
            let attempt ← jlookup fs "attempt" >>= jsonAsNat
            let msg ← jlookup fs "msg" >>= jsonAsStr
            pure (Operation.FailedAbort attempt msg)
        | _ => none
      else none
  | _ => none

/-- Models `serde_json::from_str::<WalEntry<Operation>>(&line)` used by
`Wal::open` (src/wal.rs): parse one JSON value, require only whitespace after
it (serde_json's trailing-characters check), then read the `action` field. -/
def decodeEntry (line : String) : Option Operation :=
  match parseJson (line.length + 1) line.data with
  | none => none
  | some (j, rest) =>
      if (skipWs rest).isEmpty then
        match j with
        | .obj fs => jlookup fs "action" >>= jsonToOp
        | _ => none
      else none

/-- Strips one trailing carriage return, as tokio's `next_line` does on
newline-terminated lines. -/
def stripCr (l : List Char) : List Char :=
  if l.getLast? == some '\r' then l.dropLast else l

/-- Splits file content at newline characters with the semantics of tokio's
`lines()/next_line()` loop in `Wal::open`: every newline ends a line (with a
trailing `\r` stripped), and a non-empty remainder at end of file is a final
line of its own. -/
def splitLinesAux (acc : List Char) : List Char → List (List Char)
  | [] => if acc.isEmpty then [] else [acc.reverse]
  | c :: cs =>
      if c == '\n' then
        stripCr acc.reverse :: splitLinesAux [] cs
      else
        splitLinesAux (c :: acc) cs

/-- The lines `Wal::open` reads from the given file content. -/
def splitLines (content : String) : List String :=
  (splitLinesAux [] content.data).map String.mk

/-- Embeds `Wal::open` (src/wal.rs) on given file content: read every line in
order, deserialise each, and fail the whole open on the first line that does
not parse. -/
def walOpen (content : String) : Except WalError (List Operation) :=
  (splitLines content).mapM (fun line =>
    match decodeEntry line with
    | some op => Except.ok op
    | none => Except.error (WalError.LoadError "error deserialising log: trailing characters"))

/-- Embeds `Wal::open` including the initial `fs::File::open` (src/wal.rs):
`none` models a path with no file, on which `File::open` fails and `Wal::open`
returns a `LoadError` (read-only open, nothing is created). -/
def walOpenFile (file : Option String) : Except WalError (List Operation) :=
  match file with
  | none => Except.error (WalError.LoadError "error opening log: No such file or directory (os error 2)")
  | some content => walOpen content

/-- Models the `BufStream<fs::File>` a `Wal` writes and flushes through
(src/wal.rs): the mode the underlying fd was opened with, and the file content
behind it.  `fs::File::open` — the only way `Wal::open` obtains the file —
opens it READ-ONLY. -/
structure WalStream where
  readOnly : Bool
  content : String
deriving DecidableEq, Repr

/-- Embeds `struct Wal` of src/wal.rs: the buffered stream over the log file
plus the entries parsed at open time. -/
structure Wal where
  stream : WalStream
  entries : List Operation
deriving DecidableEq, Repr

/-- Embeds `Wal::open` (src/wal.rs) at handle level: on a missing file
(`none`) the read-only `fs::File::open` fails with a `LoadError`; otherwise
every line is deserialised (the first bad line failing the whole open) and the
handle keeps the stream over the file — a stream whose fd `fs::File::open`
opened read-only.  `walOpenFile` is this function's entries projection. -/
def Wal.openHandle (file : Option String) : Except WalError Wal :=
  match file with
  | none => Except.error (WalError.LoadError "error opening log: No such file or directory (os error 2)")
  | some content =>
      match walOpen content with
      | .error e => .error e
      | .ok entries =>
          .ok { stream := { readOnly := true, content := content }, entries := entries }

/-- Embeds `Wal::append` (src/wal.rs) including the fate of its I/O:
`serde_json::to_string` of the entry (which never fails for `Operation`),
then `write_all` of the line — with NO newline separator — into the
`BufStream` buffer, then `flush`.  A record smaller than the stream's 8 KiB
buffer lands in memory, so the `flush`'s `write(2)` is the first syscall to
touch the fd; on the read-only fd that `Wal::open` obtained from
`fs::File::open` that write fails with `EBADF` and `append` returns an
`AppendError`, the file unchanged.  Only on a writable handle would the line
be appended (verbatim, with no newline).  `entries` is never pushed to by
`append` in the source. -/
def Wal.append (w : Wal) (op : Operation) : Except WalError Wal :=
  let line := encodeEntry op
  if w.stream.readOnly then
    .error (.AppendError "error flushing log: Bad file descriptor (os error 9)")
  else
    .ok { w with stream := { w.stream with content := w.stream.content ++ line } }

/-- Error type of `crate::result::Result` as used by `App` (src/app.rs):
`App::new`/`App::apply`/`App::run` propagate both `WalError`s and state
`Error`s with `?`. -/
inductive AppError where
  | wal (e : WalError)
  | state (e : Error)
  | msg (s : String)
deriving DecidableEq, Repr

/-- Embeds `App::new` (src/app.rs) up to its state field: open the log
(`none` models a missing log file) and fold every recorded operation through
`State::apply` from `Init`, propagating either failure. -/
def App.newState (file : Option String) : Except AppError State :=
  match walOpenFile file with
  | .error e => .error (.wal e)
  | .ok ops =>
      match replay ops with
      | .error e => .error (.state e)
      | .ok s => .ok s

/-- Outcome of the durable append inside `App::apply`; `err` models
`Wal::append` returning a `WalError::AppendError`. -/
inductive AppendOutcome where
  | ok
  | err (msg : String)
deriving DecidableEq, Repr

/-- Embeds `App::apply` (src/app.rs): append the operation to the log first
(`?` on failure, state untouched); then `mem::swap` the live state out against
the placeholder `State::Aborted`, run `State::apply` (`?` on failure, so the
second swap never happens and the placeholder stays in `self.state`), and swap
the successor back in.  Returns the call's result together with the value left
in `self.state`. -/
def App.applyOp (append : AppendOutcome) (s : State) (op : Operation) :
    Except AppError Unit × State :=
  match append with
  | .err m => (.error (.wal (.AppendError m)), s)
  | .ok =>
      match s.apply op with
      | .error e => (.error (.state e), State.Aborted)
      | .ok s' => (.ok (), s')

/-- Result of one external collaborator call as `App::run` observes it: either
the call's value, or its error already rendered to the message string that the
source interpolates into the `Failed*` operation. -/
inductive CollabResult (α : Type) where
  | ok (val : α)
  | err (msg : String)
deriving DecidableEq, Repr

/-- The collaborator calls one iteration of `App::run` (src/app.rs) may make:
`upload::get_parts`, `upload::start_upload`, `upload::upload_part` (whose
`CompletedPart.e_tag` is an `Option`), `upload::complete_upload` and
`upload::abort_upload`.  Paths are modelled as strings (valid UTF-8). -/
structure Collab where
  getParts : CollabResult (List String)
  startUpload : CollabResult String
  uploadPartETag : CollabResult (Option String)
  completeUpload : CollabResult Unit
  abortUpload : CollabResult Unit
deriving DecidableEq, Repr

/-- What one execution of the `match next_action` block of `App::run` does
before the `self.apply(op)` call: produce an operation to append, break out of
the loop, or return an error from `run` itself. -/
inductive LoopOutcome where
  | produce (op : Operation)
  | finished
  | fatal (msg : String)
deriving DecidableEq, Repr

/-- Embeds the part numbering of the `LoadParts` arm of `App::run`: part
numbers are assigned 1..N in path order via `Part::new`. -/
def numberParts : Int → List String → List Part
  | _, [] => []
  | i, p :: ps => Part.new i p :: numberParts (i + 1) ps

/-- Embeds the `match next_action` block of `App::run` (src/app.rs), one arm
per action.  Note the source peculiarities kept faithfully: the `LoadParts` arm
propagates a `get_parts` failure with `?` (no `Failed*` operation exists for
it), and both the `Abort` and `Complete` arms prefix their failure message with
`error aborting upload:`. -/
def executeAction (c : Collab) : Action → LoopOutcome
  | .Terminate => .finished
  | .LoadParts =>
      match c.getParts with
      | .err e => .fatal ("get part files error: " ++ e)
      | .ok paths => .produce (.ConfiguredParts (numberParts 1 paths))
  | .UploadPart _ index attempt _ =>
      match c.uploadPartETag with
      | .ok (some etag) => .produce (.UploadedPart index etag)
      | .ok none =>
          .produce (.FailedPart index attempt (rustDebugStr "missing etag in uploaded part"))
      | .err e =>
          .produce (.FailedPart index attempt (rustDebugStr ("upload part error: " ++ e)))
  | .Abort _ attempt _ =>
      match c.abortUpload with
      | .ok _ => .produce Operation.Aborted
      | .err e => .produce (.FailedAbort attempt ("error aborting upload: " ++ e))
  | .StartUpload attempt =>
      match c.startUpload with
      | .ok uploadId => .produce (.Started uploadId)
      | .err e => .produce (.FailedStart attempt ("error starting upload: " ++ e))
  | .Complete _ attempt _ =>
      match c.completeUpload with
      | .ok _ => .produce Operation.Completed
      | .err e => .produce (.FailedComplete attempt ("error aborting upload: " ++ e))

/-- A collaborator whose every call fails with message `boom`. -/
def failingCollab : Collab :=
  { getParts := .err "boom"
    startUpload := .err "boom"
    uploadPartETag := .err "boom"
    completeUpload := .err "boom"
    abortUpload := .err "boom" }

/-- Tests whether a `Failed*` operation of the phase matching the given action
was produced, carrying some message. -/
def isFailedOpFor : Action → Operation → Bool
  | .StartUpload _, .FailedStart _ _ => true
  | .UploadPart _ _ _ _, .FailedPart _ _ _ => true
  | .Complete _ _ _, .FailedComplete _ _ => true
  | .Abort _ _ _, .FailedAbort _ _ => true
  | _, _ => false

/-- Index discipline the orchestrator maintains: a `UploadedPart` or
`FailedPart` operation applied to an `Uploading` state carries that state's
own `index` (as every operation built by `App::run` from the planner's
`UploadPart` action does).  For all other state/operation pairs the condition
is vacuous. -/
def opIndexOk : State → Operation → Bool
  | .Uploading _ _ index _, .UploadedPart i _ => i == index
  | .Uploading _ _ index _, .FailedPart i _ _ => i == index
  | _, _ => true

/-- States reconstructible by folding, from `Init`, a sequence of operations
in which every step succeeds and every part operation respects the index
discipline `opIndexOk` — the states an orchestrator-produced log can replay
to. -/
inductive ReachableIC : State → Prop
  | init : ReachableIC State.Init
  | step {s : State} {op : Operation} {t : State} :
      ReachableIC s → opIndexOk s op = true → s.apply op = Except.ok t → ReachableIC t

/-- The invariant carried by index-disciplined replays: a `Starting` state
holds a non-empty part list, and an `Uploading` state's `index` is within
bounds. -/
def goodState : State → Prop
  | .Starting parts _ => parts ≠ []
  | .Uploading parts _ index _ => index < parts.length
  | _ => True

/-- A collaborator whose abort call succeeds and whose other calls fail. -/
def abortOkCollab : Collab :=
  { failingCollab with abortUpload := .ok () }

/-- True when a log open failed with a `LoadError`. -/
def isLoadErr : Except WalError (List Operation) → Bool
  | .error (.LoadError _) => true
  | _ => false

/-- The log of the spec's Scenario 3:
`[ConfiguredParts([P1]), Started("U1"), FailedPart(0,1,"timeout")]`. -/
def scenario3 : List Operation :=
  [Operation.ConfiguredParts [partP1], Operation.Started "U1",
    Operation.FailedPart 0 1 "timeout"]

/-!  Helper lemmas shared by the claim theorems. -/

/-- Each successful, index-disciplined step of `State.apply` preserves the
replay invariant `goodState`. -/
theorem goodState_apply {s t : State} {op : Operation}
    (hg : goodState s) (hok : opIndexOk s op = true) (happ : s.apply op = Except.ok t) :
    goodState t := by
  cases s with
  | Init =>
      cases op <;> simp [State.apply] at happ
      split at happ
      · simp at happ
      · rename_i hne
        injection happ with h
        subst h
        simpa [goodState] using hne
  | Starting parts attempt =>
      cases op <;> simp [State.apply] at happ
      · subst happ
        simpa [goodState, List.length_pos] using hg
      · subst happ
        exact hg
  | Uploading parts uploadId index attempt =>
      cases op <;> simp [State.apply] at happ
      · rename_i i etag
        have hi : i = index := by simpa [opIndexOk] using hok
        split at happ
        · simp at happ
        · rename_i p hpg
          have hlt : i < parts.length := (List.getElem?_eq_some.mp hpg).1
          split at happ
          · injection happ with h
            subst h
            trivial
          · rename_i hne
            injection happ with h
            subst h
            simp only [goodState, List.length_set]
            exact Nat.lt_of_le_of_ne hlt hne
      · rename_i i a m
        have hi : i = index := by simpa [opIndexOk] using hok
        subst happ
        simpa [goodState, hi] using hg
  | Completing uploadId attempt parts =>
      cases op <;> simp [State.apply] at happ <;> subst happ <;> trivial
  | Completed =>
      cases op <;> simp [State.apply] at happ
  | Aborting uploadId attempt =>
      cases op <;> simp [State.apply] at happ <;> subst happ <;> trivial
  | Aborted =>
      cases op <;> simp [State.apply] at happ

/-- Every state reachable by an index-disciplined replay satisfies the
invariant `goodState`. -/
theorem reachableIC_goodState {s : State} (h : ReachableIC s) : goodState s := by
  induction h with
  | init => trivial
  | step _ hok happ ih => exact goodState_apply ih hok happ

/-- A successful, index-disciplined step from an `Uploading` state to an
`Uploading` state never decreases the `index` field. -/
theorem apply_index_mono {parts parts2 : List Part} {uploadId uploadId2 : String}
    {index attempt index2 attempt2 : Nat} {op : Operation}
    (hok : opIndexOk (State.Uploading parts uploadId index attempt) op = true)
    (happ : (State.Uploading parts uploadId index attempt).apply op
      = Except.ok (State.Uploading parts2 uploadId2 index2 attempt2)) :
    index ≤ index2 := by
  cases op <;> simp [State.apply] at happ
  · rename_i i etag
    have hi : i = index := by simpa [opIndexOk] using hok
    split at happ
    · simp at happ
    · split at happ
      · simp at happ
      · injection happ with h
        injection h with h1 h2 h3 h4
        omega
  · rename_i i a m
    have hi : i = index := by simpa [opIndexOk] using hok
    obtain ⟨h1, h2, h3, h4⟩ := happ
    omega

/-!  Claim theorems. -/

/-- Claim C1 (code bug): the round-trip's premise — an append with a
successful return — is unsatisfiable.  `Wal::open` obtains its file handle
from the read-only `fs::File::open`, and `Wal::append` writes and flushes
through that same handle, so on every handle `Wal::open` can construct, every
append of every operation fails with an `AppendError` (the flush's write
hitting the read-only fd): no operation is ever durably recorded, and the
durability guarantee the claim states is unrealizable.  (Even on a writable
handle `Wal.append` shows the record would be written with no newline
separator, corrupting the newline-delimited format from the second record
on.) -/
theorem wal_append_never_succeeds (file : Option String) (w : Wal)
    (h : Wal.openHandle file = Except.ok w) (op : Operation) :
    Wal.append w op = Except.error
      (WalError.AppendError "error flushing log: Bad file descriptor (os error 9)") := by
  have hro : w.stream.readOnly = true := by
    cases file with
    | none => simp [Wal.openHandle] at h
    | some content =>
        simp only [Wal.openHandle] at h
        split at h
        · simp at h
        · injection h with h2
          subst h2
          rfl
  simp [Wal.append, hro]

/-- Claim C1 (witness): the theorem applied to the handle obtained by opening
an empty log, appending `Completed`. -/
theorem wal_append_never_succeeds_witness :
    Wal.append { stream := { readOnly := true, content := "" }, entries := [] }
        Operation.Completed
      = Except.error
          (WalError.AppendError "error flushing log: Bad file descriptor (os error 9)") :=
  wal_append_never_succeeds (some "")
    { stream := { readOnly := true, content := "" }, entries := [] }
    (by decide) Operation.Completed

/-- Claim C2 (code bug): from `Uploading` with `attempt = max_attempts = 3`
the planner does propose `Abort` with attempt 1, and the orchestrator turns
the abort call's outcome into `Aborted` (success) or `FailedAbort` (failure) —
but `State::apply` in the `Uploading` state rejects both operations with
`InvalidState` instead of moving to the abort phase, so the escalation is not
realizable. -/
theorem abort_escalation_rejected_by_transition :
    nextActionOpt (State.Uploading [partP1] "U1" 0 3) 3
      = some (Action.Abort "U1" 1 "3 out of 3 failures uploading part 1") ∧
    executeAction abortOkCollab (Action.Abort "U1" 1 "3 out of 3 failures uploading part 1")
      = LoopOutcome.produce Operation.Aborted ∧
    executeAction failingCollab (Action.Abort "U1" 1 "3 out of 3 failures uploading part 1")
      = LoopOutcome.produce (Operation.FailedAbort 1 "error aborting upload: boom") ∧
    (State.Uploading [partP1] "U1" 0 3).apply Operation.Aborted
      = Except.error (Error.InvalidState "invalid operation Aborted in uploading state") ∧
    (State.Uploading [partP1] "U1" 0 3).apply (Operation.FailedAbort 1 "error aborting upload: boom")
      = Except.error (Error.InvalidState
          "invalid operation FailedAbort \x7b attempt: 1, msg: \"error aborting upload: boom\" \x7d in uploading state") := by
  refine ⟨by decide, by decide, by decide, by decide, by decide⟩

/-- Claim C3 (code bug): the `FailedStart` arm of `State::apply` stores the
operation's `attempt` field without incrementing it (unlike the `FailedPart`,
`FailedComplete` and `FailedAbort` arms), so one full failing loop iteration
from `Starting{attempt:0}` — planner proposes `StartUpload{attempt:0}`, the
failed call yields `FailedStart{attempt:0}` — returns to the identical
`Starting{attempt:0}` state: the counter never grows and `max_attempts` is
never reached. -/
theorem failed_start_does_not_increment_attempt :
    nextActionOpt (State.Starting [partP1] 0) 3 = some (Action.StartUpload 0) ∧
    executeAction failingCollab (Action.StartUpload 0)
      = LoopOutcome.produce (Operation.FailedStart 0 "error starting upload: boom") ∧
    (State.Starting [partP1] 0).apply (Operation.FailedStart 0 "error starting upload: boom")
      = Except.ok (State.Starting [partP1] 0) := by
  refine ⟨by decide, by decide, by decide⟩

/-- Claim C4 (counterexample): a parseable operation sequence in which every
step of `State.apply` succeeds can leave an `Uploading` state whose `index`
exceeds `parts.len()`, because the `FailedPart` arm takes the index from the
operation: replaying `FailedPart(5,0,_)` over a one-part upload yields
`index = 5 > 1`. -/
theorem uploading_index_exceeds_parts_len :
    replay [Operation.ConfiguredParts [partP1], Operation.Started "U1",
        Operation.FailedPart 5 0 "t"]
      = Except.ok (State.Uploading [partP1] "U1" 5 1) ∧
    ([partP1] : List Part).length < 5 := by
  refine ⟨by decide, by decide⟩

/-- Claim C4 (amended): over replays in which every `UploadedPart`/`FailedPart`
operation carries the current state's `index` — the discipline every
orchestrator-produced log satisfies — the `Uploading` index is bounded by
`parts.length`, and no successful step between `Uploading` states decreases
it. -/
theorem uploading_index_monotone_and_bounded (s : State) (h : ReachableIC s) :
    (∀ parts uploadId index attempt, s = State.Uploading parts uploadId index attempt →
      index ≤ parts.length) ∧
    (∀ op t parts uploadId index attempt parts2 uploadId2 index2 attempt2,
      opIndexOk s op = true → s.apply op = Except.ok t →
      s = State.Uploading parts uploadId index attempt →
      t = State.Uploading parts2 uploadId2 index2 attempt2 →
      index ≤ index2) := by
  constructor
  · intro parts uploadId index attempt hs
    subst hs
    have hg : index < parts.length := reachableIC_goodState h
    exact Nat.le_of_lt hg
  · intro op t parts uploadId index attempt parts2 uploadId2 index2 attempt2 hok happ hs ht
    subst hs
    subst ht
    exact apply_index_mono hok happ

/-- Claim C4 (witness): the amended theorem applied to the reachable state
`Uploading([P1],"U1",0,0)` and its `FailedPart(0,0,_)` step. -/
theorem uploading_index_monotone_and_bounded_witness :
    (0 : Nat) ≤ ([partP1] : List Part).length ∧ (0 : Nat) ≤ 0 := by
  have hok0 : opIndexOk State.Init (Operation.ConfiguredParts [partP1]) = true := by decide
  have happ0 : State.Init.apply (Operation.ConfiguredParts [partP1])
      = Except.ok (State.Starting [partP1] 0) := by decide
  have h1 : ReachableIC (State.Starting [partP1] 0) :=
    ReachableIC.step ReachableIC.init hok0 happ0
  have hok1 : opIndexOk (State.Starting [partP1] 0) (Operation.Started "U1") = true := by decide
  have happ1 : (State.Starting [partP1] 0).apply (Operation.Started "U1")
      = Except.ok (State.Uploading [partP1] "U1" 0 0) := by decide
  have h2 : ReachableIC (State.Uploading [partP1] "U1" 0 0) :=
    ReachableIC.step h1 hok1 happ1
  have hmain := uploading_index_monotone_and_bounded (State.Uploading [partP1] "U1" 0 0) h2
  refine ⟨hmain.1 [partP1] "U1" 0 0 rfl, ?_⟩
  exact hmain.2 (Operation.FailedPart 0 0 "t") (State.Uploading [partP1] "U1" 0 1)
    [partP1] "U1" 0 0 [partP1] "U1" 0 1 (by decide) (by decide) rfl rfl

/-- Claim C5 (counterexample): replaying the Scenario 3 log does not
reconstruct `Uploading{index:0, attempt:1}`, and the planner applied to the
actually reconstructed state does not propose attempt 1 — the `FailedPart` arm
stores `attempt + 1 = 2`. -/
theorem scenario3_replay_not_attempt_one :
    replay scenario3 ≠ Except.ok (State.Uploading [partP1] "U1" 0 1) ∧
    nextActionOpt (State.Uploading [partP1] "U1" 0 2) 3
      ≠ some (Action.UploadPart "U1" 0 1 partP1) := by
  refine ⟨by decide, by decide⟩

/-- Claim C5 (amended): replaying the Scenario 3 log
`[ConfiguredParts([P1]), Started("U1"), FailedPart(0,1,"timeout")]` from `Init`
reconstructs exactly `Uploading{index:0, attempt:2}`, and the planner then
proposes `UploadPart{attempt:2}` for index 0 (in particular not attempt 0). -/
theorem scenario3_replay_attempt_two :
    replay scenario3 = Except.ok (State.Uploading [partP1] "U1" 0 2) ∧
    nextActionOpt (State.Uploading [partP1] "U1" 0 2) 3
      = some (Action.UploadPart "U1" 0 2 partP1) := by
  refine ⟨by decide, by decide⟩

/-- Claim C6 (counterexample): a `LoadParts` collaborator failure is not
captured as data — the `LoadParts` arm of `App::run` propagates the
`get_parts` error with `?`, returning an error from the loop (there is no
`Failed*` operation for part discovery). -/
theorem loadparts_failure_is_fatal :
    executeAction failingCollab Action.LoadParts
      = LoopOutcome.fatal "get part files error: boom" := rfl

/-- Claim C6 (amended): for the four non-terminal actions other than
`LoadParts` — `StartUpload`, `UploadPart`, `Complete`, `Abort` — a failing
collaborator call is mapped to the corresponding `Failed*` operation carrying
a message, to be appended, and does not end the iteration with an error. -/
theorem collaborator_failures_become_operations (c : Collab) (m : String) :
    (∀ attempt, c.startUpload = CollabResult.err m →
      executeAction c (Action.StartUpload attempt)
        = LoopOutcome.produce (Operation.FailedStart attempt ("error starting upload: " ++ m))) ∧
    (∀ uploadId index attempt part, c.uploadPartETag = CollabResult.err m →
      executeAction c (Action.UploadPart uploadId index attempt part)
        = LoopOutcome.produce
            (Operation.FailedPart index attempt (rustDebugStr ("upload part error: " ++ m)))) ∧
    (∀ uploadId attempt parts, c.completeUpload = CollabResult.err m →
      executeAction c (Action.Complete uploadId attempt parts)
        = LoopOutcome.produce (Operation.FailedComplete attempt ("error aborting upload: " ++ m))) ∧
    (∀ uploadId attempt msg, c.abortUpload = CollabResult.err m →
      executeAction c (Action.Abort uploadId attempt msg)
        = LoopOutcome.produce (Operation.FailedAbort attempt ("error aborting upload: " ++ m))) := by
  refine ⟨?_, ?_, ?_, ?_⟩ <;> intros <;> simp [executeAction, *]

/-- Claim C6 (witness): the amended theorem applied to the all-failing
collaborator at concrete actions of each of the four kinds. -/
theorem collaborator_failures_become_operations_witness :
    executeAction failingCollab (Action.StartUpload 0)
      = LoopOutcome.produce (Operation.FailedStart 0 "error starting upload: boom") ∧
    executeAction failingCollab (Action.UploadPart "U1" 0 0 partP1)
      = LoopOutcome.produce (Operation.FailedPart 0 0 (rustDebugStr "upload part error: boom")) ∧
    executeAction failingCollab (Action.Complete "U1" 0 [partP1])
      = LoopOutcome.produce (Operation.FailedComplete 0 "error aborting upload: boom") ∧
    executeAction failingCollab (Action.Abort "U1" 1 "x")
      = LoopOutcome.produce (Operation.FailedAbort 1 "error aborting upload: boom") := by
  have h := collaborator_failures_become_operations failingCollab "boom"
  exact ⟨h.1 0 rfl, h.2.1 "U1" 0 0 partP1 rfl, h.2.2.1 "U1" 0 [partP1] rfl,
    h.2.2.2 "U1" 1 "x" rfl⟩

/-- Claim C7: every operation applied to either terminal state (`Completed`
or `Aborted`) yields an `InvalidState` error — no operation produces a new
state out of a terminal one. -/
theorem terminal_states_reject_all_operations (op : Operation) :
    (∃ m, State.Completed.apply op = Except.error (Error.InvalidState m)) ∧
    (∃ m, State.Aborted.apply op = Except.error (Error.InvalidState m)) := by
  cases op <;> exact ⟨⟨_, rfl⟩, ⟨_, rfl⟩⟩

/-- Claim C8 (counterexample): a parseable log whose every record applies
successfully can reconstruct `Uploading` with `index = parts.len()`, on which
`App::next_action`'s `parts.get(index).unwrap()` panics (modelled as `none`). -/
theorem planner_panics_on_crafted_log :
    replay [Operation.ConfiguredParts [partP1], Operation.Started "U1",
        Operation.FailedPart 1 0 "x"]
      = Except.ok (State.Uploading [partP1] "U1" 1 1) ∧
    nextActionOpt (State.Uploading [partP1] "U1" 1 1) 3 = none := by
  refine ⟨by decide, by decide⟩

/-- Claim C8 (amended): on every state reconstructible by an
index-disciplined replay — the states orchestrator-produced logs can reach —
`App::next_action` returns an action for every `max_attempts`; in particular
the `parts[index]` lookup in the `Uploading` arm succeeds. -/
theorem planner_total_on_disciplined_replays (s : State) (h : ReachableIC s)
    (maxAttempts : Nat) : (nextActionOpt s maxAttempts).isSome = true := by
  have hg := reachableIC_goodState h
  cases s with
  | Init => simp [nextActionOpt]
  | Starting parts attempt =>
      simp only [nextActionOpt]
      split <;> simp
  | Uploading parts uploadId index attempt =>
      have hg2 : index < parts.length := hg
      simp only [nextActionOpt]
      split
      · simp
      · rw [List.get?_eq_get hg2]
        simp
  | Completing uploadId attempt parts =>
      simp only [nextActionOpt]
      split <;> simp
  | Completed => simp [nextActionOpt]
  | Aborting uploadId attempt =>
      simp only [nextActionOpt]
      split <;> simp
  | Aborted => simp [nextActionOpt]

/-- Claim C8 (witness): the amended theorem applied to the reachable state
`Uploading([P1],"U1",0,0)` with `max_attempts = 3`. -/
theorem planner_total_on_disciplined_replays_witness :
    (nextActionOpt (State.Uploading [partP1] "U1" 0 0) 3).isSome = true := by
  have hok0 : opIndexOk State.Init (Operation.ConfiguredParts [partP1]) = true := by decide
  have happ0 : State.Init.apply (Operation.ConfiguredParts [partP1])
      = Except.ok (State.Starting [partP1] 0) := by decide
  have h1 : ReachableIC (State.Starting [partP1] 0) :=
    ReachableIC.step ReachableIC.init hok0 happ0
  have hok1 : opIndexOk (State.Starting [partP1] 0) (Operation.Started "U1") = true := by decide
  have happ1 : (State.Starting [partP1] 0).apply (Operation.Started "U1")
      = Except.ok (State.Uploading [partP1] "U1" 0 0) := by decide
  have h2 : ReachableIC (State.Uploading [partP1] "U1" 0 0) :=
    ReachableIC.step h1 hok1 happ1
  exact planner_total_on_disciplined_replays (State.Uploading [partP1] "U1" 0 0) h2 3

/-- Claim C9: when the append succeeds but the in-memory transition fails,
`App::apply` returns the transition error and the `mem::swap` dance leaves the
placeholder `State::Aborted` in the state field — the pre-call state is never
restored. -/
theorem apply_transition_failure_leaves_placeholder (s : State) (op : Operation)
    (e : Error) (h : s.apply op = Except.error e) :
    App.applyOp AppendOutcome.ok s op
      = (Except.error (AppError.state e), State.Aborted) := by
  simp [App.applyOp, h]

/-- Claim C9 (witness): the theorem applied to the failing transition
`apply(Completed, Completed)`. -/
theorem apply_transition_failure_leaves_placeholder_witness :
    App.applyOp AppendOutcome.ok State.Completed Operation.Completed
      = (Except.error (AppError.state
          (Error.InvalidState "invalid operation Completed in completed state")),
         State.Aborted) :=
  apply_transition_failure_leaves_placeholder State.Completed Operation.Completed
    (Error.InvalidState "invalid operation Completed in completed state") (by decide)

/-- Claim C10: opening the WAL at a path with no file fails with a
`LoadError` (the read-only `fs::File::open` creates nothing), and `App::new`
propagates that failure instead of starting from an empty operation
sequence. -/
theorem open_missing_log_fails :
    isLoadErr (walOpenFile none) = true ∧
    App.newState none = Except.error (AppError.wal
      (WalError.LoadError "error opening log: No such file or directory (os error 2)")) := by
  refine ⟨by decide, by decide⟩

end S3mu
